import Mathlib

/-!
Verification of the finhub budget and goal engines.

This file gives a shallow embedding of the budget plan/fact engine
(`budgets/models.py`, `budgets/serializers.py`) and of the goal ledger and
recommendation engine (`telegram_bot/services/goal_service.py`,
`goals/models.py`, `transactions/models.py`), and proves the behavioural
properties stated in the specification against it.

Modelling conventions:
- `decimal.Decimal` money values are embedded as `ℚ` (exact arithmetic);
  `Decimal.quantize(Decimal('0.01'))` (banker's rounding, the default
  `ROUND_HALF_EVEN`) is embedded as `quantize2`.
- `datetime.date` is embedded as `SDate` (proleptic Gregorian triple) with
  Python's lexicographic comparison; `date.toordinal` arithmetic, which
  underlies `timedelta` subtraction, is embedded as `toOrdinal` using the
  same day-count formula as CPython's `_ymd2ord`.
- `datetime.datetime` is embedded as `SDateTime` (a date plus seconds
  within the day); `timezone.make_aware(datetime(y, m, d))` is midnight.
- Database rows are lists inside a `DB` record; users, categories and
  goals are referenced by numeric ids, as in the relational schema.
- Django's `Sum(...)` aggregate with `Coalesce`/`or Decimal('0')` is a
  list sum (empty sum is `0`, matching the coalesced `None`).
-/

/-- Calendar date, mirroring Python `datetime.date` (year, month, day). -/
structure SDate where
  year : Int
  month : Int
  day : Int
deriving DecidableEq, Repr

/-- Strict lexicographic order on dates, as Python compares `date` values. -/
def SDate.lt (a b : SDate) : Prop :=
  a.year < b.year ∨ (a.year = b.year ∧
    (a.month < b.month ∨ (a.month = b.month ∧ a.day < b.day)))

instance (a b : SDate) : Decidable (SDate.lt a b) := by
  unfold SDate.lt; infer_instance

/-- Non-strict date order. -/
def SDate.le (a b : SDate) : Prop := SDate.lt a b ∨ a = b

instance (a b : SDate) : Decidable (SDate.le a b) := by
  unfold SDate.le; infer_instance

/-- Timestamp, mirroring Python `datetime.datetime`: a date plus the number
of seconds elapsed within that day. -/
structure SDateTime where
  date : SDate
  secs : Int
deriving DecidableEq, Repr

/-- Strict lexicographic order on timestamps. -/
def SDateTime.lt (a b : SDateTime) : Prop :=
  SDate.lt a.date b.date ∨ (a.date = b.date ∧ a.secs < b.secs)

instance (a b : SDateTime) : Decidable (SDateTime.lt a b) := by
  unfold SDateTime.lt; infer_instance

/-- Non-strict timestamp order. -/
def SDateTime.le (a b : SDateTime) : Prop := SDateTime.lt a b ∨ a = b

instance (a b : SDateTime) : Decidable (SDateTime.le a b) := by
  unfold SDateTime.le; infer_instance

/-- Gregorian leap-year test (`calendar.isleap`). -/
def isLeap (y : Int) : Bool :=
  decide (y % 4 = 0 ∧ (y % 100 ≠ 0 ∨ y % 400 = 0))

/-- Number of days in a Gregorian month. -/
def daysInMonth (y m : Int) : Int :=
  if m = 2 then (if isLeap y then 29 else 28)
  else if m = 4 ∨ m = 6 ∨ m = 9 ∨ m = 11 then 30
  else 31

/-- The previous calendar day, embedding `date - timedelta(days=1)`. -/
def predDay (d : SDate) : SDate :=
  if 1 < d.day then ⟨d.year, d.month, d.day - 1⟩
  else if 1 < d.month then ⟨d.year, d.month - 1, daysInMonth d.year (d.month - 1)⟩
  else ⟨d.year - 1, 12, 31⟩

/-- Days in all years strictly before year `y` (CPython `_days_before_year`;
`/` on `Int` here is euclidean division, which agrees with Python's floor
division on the nonnegative arguments produced by valid years). -/
def daysBeforeYear (y : Int) : Int :=
  (y - 1) * 365 + (y - 1) / 4 - (y - 1) / 100 + (y - 1) / 400

/-- Days in year `y` strictly before month `m` (CPython `_days_before_month`). -/
def daysBeforeMonth (y m : Int) : Int :=
  (if m = 1 then 0 else if m = 2 then 31 else if m = 3 then 59
   else if m = 4 then 90 else if m = 5 then 120 else if m = 6 then 151
   else if m = 7 then 181 else if m = 8 then 212 else if m = 9 then 243
   else if m = 10 then 273 else if m = 11 then 304 else 334)
  + (if 2 < m ∧ isLeap y then 1 else 0)

/-- Proleptic-Gregorian day number (CPython `date.toordinal`). -/
def toOrdinal (d : SDate) : Int :=
  daysBeforeYear d.year + daysBeforeMonth d.year d.month + d.day

/-- `(a - b).days` for two dates, as Python `date` subtraction computes it. -/
def dateSubDays (a b : SDate) : Int := toOrdinal a - toOrdinal b

/-- Floor of a rational (euclidean division of the reduced fraction). -/
def floorQ (q : ℚ) : Int := q.num / (q.den : Int)

/-- Round a rational to the nearest integer, ties to even
(`decimal.ROUND_HALF_EVEN`, the default `Decimal` rounding). -/
def roundHalfEvenQ (q : ℚ) : Int :=
  let f := floorQ q
  let r := q - (f : ℚ)
  if r < 1 / 2 then f
  else if 1 / 2 < (r : ℚ) then f + 1
  else if 2 ∣ f then f else f + 1

/-- `Decimal.quantize(Decimal('0.01'))`: round to two decimal places,
banker's rounding. -/
def quantize2 (q : ℚ) : ℚ := (roundHalfEvenQ (q * 100) : ℚ) / 100

/-- `statistics.median`: sort ascending; middle element for odd length,
mean of the two middle elements for even length. -/
def medianQ (l : List ℚ) : ℚ :=
  let s := l.mergeSort (fun a b => decide (a ≤ b))
  let n := s.length
  if n % 2 = 1 then s.getD (n / 2) 0
  else (s.getD (n / 2 - 1) 0 + s.getD (n / 2) 0) / 2

/-- A row of `transactions.models.Transaction` (the fields the engine reads). -/
structure Transaction where
  user : Nat
  category : Nat
  amount : ℚ
  date : SDate
deriving DecidableEq, Repr

/-- `Budget.period_type` choices. -/
inductive PeriodType where
  | monthly
  | weekly
  | yearly
deriving DecidableEq, Repr

/-- A row of `budgets.models.Budget`. -/
structure Budget where
  id : Nat
  user : Nat
  category : Nat
  amount : ℚ
  periodType : PeriodType
  startDate : SDate
  endDate : SDate
  isActive : Bool
deriving DecidableEq, Repr

/-- A row of `goals.models.Goal` (the fields the engine reads). -/
structure Goal where
  id : Nat
  user : Nat
  targetAmount : ℚ
  deadline : Option SDate
deriving DecidableEq, Repr

/-- `GoalLedgerEntry.entry_type` choices. -/
inductive EntryType where
  | deposit
  | withdraw
  | spendFromGoal
deriving DecidableEq, Repr

/-- A row of `goals.models.GoalLedgerEntry` (the fields the engine reads). -/
structure GoalLedgerEntry where
  goalId : Nat
  occurredAt : SDateTime
  amount : ℚ
  entryType : EntryType
deriving DecidableEq, Repr

/-- The relational store the engines query. -/
structure DB where
  transactions : List Transaction
  budgets : List Budget
  goals : List Goal
  entries : List GoalLedgerEntry
deriving Repr

/-- `Budget.spent_amount`: absolute value of the (coalesced) sum of the
user's negative-amount transactions in the budget's category whose date
lies in `[start_date, end_date]`. -/
def Budget.spentAmount (db : DB) (b : Budget) : ℚ :=
  |(((db.transactions.filter (fun t => decide (t.user = b.user ∧
      t.category = b.category ∧ SDate.le b.startDate t.date ∧
      SDate.le t.date b.endDate ∧ t.amount < 0))).map
      (fun t => t.amount)).sum)|

/-- `Budget.remaining_amount`. -/
def Budget.remainingAmount (db : DB) (b : Budget) : ℚ :=
  b.amount - b.spentAmount db

/-- `Budget.spent_percentage`: `0` when `amount == 0`, else
`spent / amount * 100`. -/
def Budget.spentPercentage (db : DB) (b : Budget) : ℚ :=
  if b.amount = 0 then 0 else (b.spentAmount db / b.amount) * 100

/-- `Budget.is_overspent`. -/
def Budget.isOverspent (db : DB) (b : Budget) : Prop :=
  b.amount < b.spentAmount db

/-- `Budget.days_remaining` on possibly-unset dates (the source guards
`start_date`/`end_date` being `None` on unsaved instances). -/
def daysRemainingOf (startD endD : Option SDate) (today : SDate) : Int :=
  match startD, endD with
  | none, _ => 0
  | _, none => 0
  | some _, some e => if SDate.lt e today then 0 else dateSubDays e today

/-- `Budget.days_remaining` of a persisted budget (both dates set). -/
def Budget.daysRemaining (b : Budget) (today : SDate) : Int :=
  daysRemainingOf (some b.startDate) (some b.endDate) today

/-- `Budget.days_total` on possibly-unset dates. -/
def daysTotalOf (startD endD : Option SDate) : Int :=
  match startD, endD with
  | none, _ => 0
  | _, none => 0
  | some s, some e => dateSubDays e s + 1

/-- `Budget.days_total` of a persisted budget. -/
def Budget.daysTotal (b : Budget) : Int :=
  daysTotalOf (some b.startDate) (some b.endDate)

/-- `Budget.daily_budget_remaining`: `0.00` when `days_remaining <= 0`,
else `remaining_amount / days_remaining`. -/
def Budget.dailyBudgetRemaining (db : DB) (b : Budget) (today : SDate) : ℚ :=
  if b.daysRemaining today ≤ 0 then 0
  else b.remainingAmount db / ((b.daysRemaining today : Int) : ℚ)

/-- The queryset filter of `Budget.get_current_budget`: the user's active
budgets of the category whose `[start_date, end_date]` window contains the
date. -/
def currentBudgetMatches (db : DB) (user category : Nat) (d : SDate) :
    List Budget :=
  db.budgets.filter (fun b => decide (b.user = user ∧ b.category = category ∧
      SDate.le b.startDate d ∧ SDate.le d b.endDate ∧ b.isActive = true))

/-- `Budget.get_current_budget`: order the matches by the model's default
`-start_date` (a stable sort, mirroring `ORDER BY start_date DESC`) and
take the first row if any (`.first()` returns `None` on an empty
queryset). -/
def getCurrentBudget (db : DB) (user category : Nat) (d : SDate) : Option Budget :=
  ((currentBudgetMatches db user category d).mergeSort
      (fun a b => decide (SDate.le b.startDate a.startDate))).head?

/-- `Budget.create_monthly_budget`: first of the month through the last of
the month (December rolls into January); `id` stands for the primary key
the store assigns to the new row. -/
def createMonthlyBudget (id user category : Nat) (amount : ℚ)
    (year month : Int) : Budget :=
  let startDate : SDate := ⟨year, month, 1⟩
  let endDate : SDate :=
    if month = 12 then predDay ⟨year + 1, 1, 1⟩
    else predDay ⟨year, month + 1, 1⟩
  { id := id, user := user, category := category, amount := amount,
    periodType := PeriodType.monthly, startDate := startDate,
    endDate := endDate, isActive := true }

/-- `Budget.create_monthly_budget` as a store mutation: it calls
`objects.create` directly, appending the row with no validation step. -/
def DB.createMonthlyBudgetPersist (db : DB) (id user category : Nat)
    (amount : ℚ) (year month : Int) : DB × Budget :=
  let b := createMonthlyBudget id user category amount year month
  ({ db with budgets := db.budgets ++ [b] }, b)

/-- The overlap test of `BudgetSerializer.validate`: does some *other*
active budget of the same user and category overlap `[startD, endD]`? -/
def overlappingActiveBudgetExists (db : DB) (excludePk : Option Nat)
    (user category : Nat) (startD endD : SDate) : Bool :=
  (db.budgets.filter (fun b => decide (b.user = user ∧ b.category = category ∧
      b.isActive = true ∧ excludePk ≠ some b.id))).any
    (fun b => decide (SDate.le b.startDate endD ∧ SDate.le startD b.endDate))

/-- `BudgetSerializer.validate`: a missing `end_date` defaults to
`start_date`; an overlap with another active budget of the category raises
a `ValidationError` before any write. -/
def budgetSerializerValidate (db : DB) (instancePk : Option Nat)
    (user category : Nat) (startD : SDate) (endDOpt : Option SDate) :
    Except String Unit :=
  if overlappingActiveBudgetExists db instancePk user category startD
      (endDOpt.getD startD)
  then Except.error "overlapping active budget for this category"
  else Except.ok ()

/- ### Goal service (`telegram_bot/services/goal_service.py`) -/

/-- `GoalService._month_range`: first day of the month and first day of
the following month (December rolls into January). -/
def monthRange (target : SDate) : SDate × SDate :=
  (⟨target.year, target.month, 1⟩,
   if target.month = 12 then ⟨target.year + 1, 1, 1⟩
   else ⟨target.year, target.month + 1, 1⟩)

/-- `GoalService._months_inclusive`. -/
def monthsInclusive (fromMonth toMonth : SDate) : Int :=
  (toMonth.year - fromMonth.year) * 12 + (toMonth.month - fromMonth.month) + 1

/-- Look up a goal row by primary key. -/
def DB.goalOf (db : DB) (goalId : Nat) : Option Goal :=
  db.goals.find? (fun g => decide (g.id = goalId))

/-- The owner of the goal a ledger entry points at (the `goal__user`
join), when the goal row exists. -/
def DB.entryUser (db : DB) (en : GoalLedgerEntry) : Option Nat :=
  (db.goalOf en.goalId).map (fun g => g.user)

/-- `GoalService.get_goal`: the user's goal with the given id, if any. -/
def getGoal (db : DB) (user goalId : Nat) : Option Goal :=
  db.goals.find? (fun g => decide (g.id = goalId ∧ g.user = user))

/-- `GoalService.get_goal_balance`: coalesced sum of all ledger entry
amounts of the user's goal; no clamping. -/
def getGoalBalance (db : DB) (user goalId : Nat) : ℚ :=
  ((db.entries.filter (fun en => decide (en.goalId = goalId ∧
      db.entryUser en = some user))).map (fun en => en.amount)).sum

/-- `GoalService.get_free_funds_for_month`: income minus expenses (as a
positive number) minus the net ledger allocations of the month. The
ledger window is `[midnight of the 1st, midnight of the next 1st)`. -/
def getFreeFundsForMonth (db : DB) (user : Nat) (month : SDate) : ℚ :=
  let r := monthRange month
  let txs := db.transactions.filter (fun t => decide (t.user = user ∧
      SDate.le r.1 t.date ∧ SDate.lt t.date r.2))
  let incomeTotal := ((txs.filter (fun t => decide (0 < t.amount))).map
      (fun t => t.amount)).sum
  let expenseTotal := ((txs.filter (fun t => decide (t.amount < 0))).map
      (fun t => t.amount)).sum
  let expensesAbs := |expenseTotal|
  let startDt : SDateTime := ⟨r.1, 0⟩
  let endDt : SDateTime := ⟨r.2, 0⟩
  let allocationsNet := ((db.entries.filter (fun en => decide
      (db.entryUser en = some user ∧ SDateTime.le startDt en.occurredAt ∧
       SDateTime.lt en.occurredAt endDt))).map (fun en => en.amount)).sum
  incomeTotal - expensesAbs - allocationsNet

/-- The monthly deposit/withdraw aggregates of
`GoalService.get_goal_month_metrics`. -/
structure MonthMetrics where
  deposits : ℚ
  withdraws : ℚ
  net : ℚ
deriving DecidableEq, Repr

/-- `GoalService.get_goal_month_metrics`. -/
def getGoalMonthMetrics (db : DB) (goalId : Nat) (month : SDate) :
    MonthMetrics :=
  let r := monthRange month
  let startDt : SDateTime := ⟨r.1, 0⟩
  let endDt : SDateTime := ⟨r.2, 0⟩
  let qs := db.entries.filter (fun en => decide (en.goalId = goalId ∧
      SDateTime.le startDt en.occurredAt ∧ SDateTime.lt en.occurredAt endDt))
  let deposits := ((qs.filter (fun en => decide (0 < en.amount))).map
      (fun en => en.amount)).sum
  let withdraws := ((qs.filter (fun en => decide (en.amount < 0))).map
      (fun en => en.amount)).sum
  { deposits := deposits, withdraws := withdraws, net := deposits + withdraws }

/-- The first day of the month before `c` (one step of the cursor loop in
`get_budget_underuse_recommendations`). -/
def prevMonthStart (c : SDate) : SDate :=
  if c.month = 1 then ⟨c.year - 1, 12, 1⟩ else ⟨c.year, c.month - 1, 1⟩

/-- The first days of the `n` complete months preceding the cursor,
nearest month first. -/
def monthsListFrom : Nat → SDate → List SDate
  | 0, _ => []
  | n + 1, c => prevMonthStart c :: monthsListFrom n (prevMonthStart c)

/-- The `months_list` of `get_budget_underuse_recommendations`: the first
days of the `months` complete months preceding `today`'s month. -/
def monthsList (today : SDate) (months : Nat) : List SDate :=
  monthsListFrom months ⟨today.year, today.month, 1⟩

/-- The budget queryset of `get_budget_underuse_recommendations`: the
user's active monthly budgets starting on one of the listed month firsts. -/
def recommendationBudgets (db : DB) (user : Nat) (ms : List SDate) :
    List Budget :=
  db.budgets.filter (fun b => decide (b.user = user ∧ b.isActive = true ∧
      b.periodType = PeriodType.monthly ∧ b.startDate ∈ ms))

/-- Keys of a Python dict built by `setdefault` insertion: the categories
in order of first appearance. -/
def firstKeysAux (acc : List Nat) : List Nat → List Nat
  | [] => acc
  | c :: rest => firstKeysAux (if c ∈ acc then acc else acc ++ [c]) rest

/-- Category keys of the `by_category` dict, in insertion order. -/
def firstKeys (l : List Nat) : List Nat := firstKeysAux [] l

/-- `{b.start_date: b for b in items}[m]`: the dict comprehension keeps
the last item per start date. -/
def lastForStart (items : List Budget) (m : SDate) : Option Budget :=
  items.reverse.find? (fun b => decide (b.startDate = m))

/-- One saving recommendation (`GoalRecommendation` dataclass). The
human-readable description string names the category and the rounded
median underuse; `categoryId` stands for the category it names, the rest
of the free text being presentational. -/
structure GoalRecommendation where
  title : String
  categoryId : Nat
  suggestedAmount : ℚ
deriving DecidableEq, Repr

/-- `max(Decimal('0'), budget_amount - spent)` for one month's budget. -/
def underuseOf (db : DB) (b : Budget) : ℚ :=
  max 0 (b.amount - b.spentAmount db)

/-- The per-category body of the recommendation loop: month coverage
checks, sustained-underuse check, then the absolute and relative floors
on the rounded median. -/
def processCategory (db : DB) (ms : List SDate) (months : Nat)
    (minRubles minPercent : ℚ) (c : Nat) (items : List Budget) :
    Option GoalRecommendation :=
  if items.length < months then none
  else if ms.any (fun m => (lastForStart items m).isNone) then none
  else
    let monthBudgets := ms.filterMap (fun m => lastForStart items m)
    let underuses := monthBudgets.map (fun b => underuseOf db b)
    let budgetAmounts := monthBudgets.map (fun b => b.amount)
    if underuses.any (fun u => decide (u ≤ 0)) then none
    else
      let uMedian := quantize2 (medianQ underuses)
      let bAvg := quantize2 (budgetAmounts.sum / (budgetAmounts.length : ℚ))
      if uMedian < minRubles then none
      else if 0 < bAvg ∧ uMedian / bAvg < minPercent then none
      else some { title := "Потенциальный резерв из бюджета",
                  categoryId := c, suggestedAmount := uMedian }

/-- The unsorted recommendation list (the `results` accumulator of
`get_budget_underuse_recommendations` before the final sort). -/
def underuseRecommendationsPre (db : DB) (user : Nat) (today : SDate)
    (months : Nat) (minRubles minPercent : ℚ) : List GoalRecommendation :=
  let ms := monthsList today months
  let budgets := recommendationBudgets db user ms
  (firstKeys (budgets.map (fun b => b.category))).filterMap
    (fun c => processCategory db ms months minRubles minPercent c
      (budgets.filter (fun b => decide (b.category = c))))

/-- `GoalService.get_budget_underuse_recommendations`: stable sort by
`suggested_amount` descending (Python `list.sort` with `reverse=True`),
then the top 3. Defaults: `months = 3`, `min_rubles = 1000`,
`min_percent = 0.05`. -/
def getBudgetUnderuseRecommendations (db : DB) (user : Nat) (today : SDate)
    (months : Nat) (minRubles minPercent : ℚ) : List GoalRecommendation :=
  ((underuseRecommendationsPre db user today months minRubles
      minPercent).mergeSort
    (fun a b => decide (b.suggestedAmount ≤ a.suggestedAmount))).take 3

/-- The aggregate returned by `GoalService.get_goal_card_data`. -/
structure GoalCardData where
  goalId : Nat
  balance : ℚ
  target : ℚ
  remainingTotal : ℚ
  progressPct : ℚ
  monthsRemaining : Option Int
  plannedPerMonth : Option ℚ
  plannedThisMonth : Option ℚ
  depositedThisMonth : ℚ
  withdrawnThisMonth : ℚ
  remainingThisMonth : Option ℚ
  freeFundsThisMonth : ℚ
  recommendations : List GoalRecommendation
deriving Repr

/-- `GoalService.get_goal_card_data`: `None` for a missing or foreign
goal; otherwise the display aggregate, with the balance floored at zero. -/
def getGoalCardData (db : DB) (user goalId : Nat) (today : SDate) :
    Option GoalCardData :=
  match getGoal db user goalId with
  | none => none
  | some goal =>
    let balance := max (getGoalBalance db user goalId) 0
    let target := goal.targetAmount
    let remainingTotal := max (target - balance) 0
    let progressPct := if 0 < target then (balance / target) * 100 else 0
    let monthsRemaining : Option Int :=
      match goal.deadline with
      | some dl => if SDate.le today dl then some (monthsInclusive today dl)
                   else none
      | none => none
    let plannedPerMonth : Option ℚ :=
      match monthsRemaining with
      | some n => if 0 < n then some (quantize2 (remainingTotal / (n : ℚ)))
                  else none
      | none => none
    let plannedThisMonth := plannedPerMonth
    let mm := getGoalMonthMetrics db goalId today
    let remainingThisMonth : Option ℚ :=
      plannedThisMonth.map (fun p => max (p - mm.deposits) 0)
    some { goalId := goalId, balance := balance, target := target,
           remainingTotal := remainingTotal, progressPct := progressPct,
           monthsRemaining := monthsRemaining,
           plannedPerMonth := plannedPerMonth,
           plannedThisMonth := plannedThisMonth,
           depositedThisMonth := mm.deposits,
           withdrawnThisMonth := |mm.withdraws|,
           remainingThisMonth := remainingThisMonth,
           freeFundsThisMonth := getFreeFundsForMonth db user today,
           recommendations :=
             getBudgetUnderuseRecommendations db user today 3 1000 (5 / 100) }

/- ### Specification-side definitions (stated from the spec's wording,
to be compared with the embedded code) -/

/-- Spec side: the date falls within the calendar month of `month`
(first day inclusive, first day of the next month exclusive). -/
def dateInMonthWindow (month d : SDate) : Prop :=
  SDate.le (monthRange month).1 d ∧ SDate.lt d (monthRange month).2

instance (month d : SDate) : Decidable (dateInMonthWindow month d) := by
  unfold dateInMonthWindow; infer_instance

/-- Spec side: the timestamp falls within the calendar month of `month`
(midnight of the first day inclusive, midnight of the first day of the
next month exclusive). -/
def dtInMonthWindow (month : SDate) (t : SDateTime) : Prop :=
  SDateTime.le ⟨(monthRange month).1, 0⟩ t
    ∧ SDateTime.lt t ⟨(monthRange month).2, 0⟩

instance (month : SDate) (t : SDateTime) :
    Decidable (dtInMonthWindow month t) := by
  unfold dtInMonthWindow; infer_instance

/-- Spec side: sum of the user's positive transaction amounts dated in
the month. -/
def incomeTotalSpec (db : DB) (user : Nat) (month : SDate) : ℚ :=
  ((db.transactions.filter (fun t => decide (t.user = user ∧
      dateInMonthWindow month t.date ∧ 0 < t.amount))).map
      (fun t => t.amount)).sum

/-- Spec side: absolute value of the sum of the user's negative
transaction amounts dated in the month. -/
def expensesTotalSpec (db : DB) (user : Nat) (month : SDate) : ℚ :=
  |(((db.transactions.filter (fun t => decide (t.user = user ∧
      dateInMonthWindow month t.date ∧ t.amount < 0))).map
      (fun t => t.amount)).sum)|

/-- Spec side: the signed sum of ledger-entry amounts across all of the
user's goals whose `occurred_at` falls within the calendar month. -/
def netGoalAllocationsSpec (db : DB) (user : Nat) (month : SDate) : ℚ :=
  ((db.goals.filter (fun g => decide (g.user = user))).map (fun g =>
    ((db.entries.filter (fun en => decide (en.goalId = g.id ∧
        dtInMonthWindow month en.occurredAt))).map
        (fun en => en.amount)).sum)).sum

/-- Spec side: the value is a whole number of kopecks, as every
`DecimalField(decimal_places=2)` column stores (the reduced denominator
divides 100). -/
def isCents (q : ℚ) : Prop := q.den ∣ 100

instance (q : ℚ) : Decidable (isCents q) := by
  unfold isCents; infer_instance

/-- Spec side: "the user's active monthly budget of the category starting
on the first day of month `m`" (the claim speaks of it as unique). -/
def specMonthBudget (db : DB) (user c : Nat) (m : SDate) : Option Budget :=
  db.budgets.find? (fun b => decide (b.user = user ∧ b.isActive = true ∧
    b.periodType = PeriodType.monthly ∧ b.category = c ∧ b.startDate = m))

/-- Spec side: those budgets across the listed months. -/
def specMonthBudgets (db : DB) (user c : Nat) (ms : List SDate) : List Budget :=
  ms.filterMap (specMonthBudget db user c)

/-- Spec side: the rounded median of the monthly underuses of the
category. -/
def specUnderuseMedian (db : DB) (user c : Nat) (ms : List SDate) : ℚ :=
  quantize2 (medianQ ((specMonthBudgets db user c ms).map
    (fun b => underuseOf db b)))

/-- Spec side: the rounded average budget amount of the category across
the months. -/
def specBudgetAvg (db : DB) (user c : Nat) (ms : List SDate) : ℚ :=
  quantize2 (((specMonthBudgets db user c ms).map (fun b => b.amount)).sum
    / (((specMonthBudgets db user c ms).map (fun b => b.amount)).length : ℚ))

/-- Spec side, the four criteria of the claim for a category: a budget in
each of the three preceding months, strictly positive underuse in every
month, a median underuse of at least 1000 rubles, and a median at least
5% of the average budget. -/
def recommendsSpec (db : DB) (user : Nat) (today : SDate) (c : Nat) : Prop :=
  (∀ m ∈ monthsList today 3, ∃ b ∈ db.budgets, b.user = user ∧
      b.isActive = true ∧ b.periodType = PeriodType.monthly ∧
      b.category = c ∧ b.startDate = m)
  ∧ (∀ b ∈ db.budgets, b.user = user → b.isActive = true →
      b.periodType = PeriodType.monthly → b.category = c →
      b.startDate ∈ monthsList today 3 → 0 < underuseOf db b)
  ∧ 1000 ≤ specUnderuseMedian db user c (monthsList today 3)
  ∧ 5 / 100 ≤ specUnderuseMedian db user c (monthsList today 3)
      / specBudgetAvg db user c (monthsList today 3)

/- ### Concrete test fixtures used by witness theorems -/

/-- A January-2024 budget of zero amount (test fixture). -/
def fixBudgetZero : Budget :=
  { id := 1, user := 1, category := 1, amount := 0,
    periodType := PeriodType.monthly,
    startDate := ⟨2024, 1, 1⟩, endDate := ⟨2024, 1, 31⟩, isActive := true }

/-- A January-2024 budget of amount 200 (test fixture). -/
def fixBudget200 : Budget :=
  { id := 2, user := 1, category := 1, amount := 200,
    periodType := PeriodType.monthly,
    startDate := ⟨2024, 1, 1⟩, endDate := ⟨2024, 1, 31⟩, isActive := true }

/-- A store with one 50-ruble expense in January 2024 (test fixture). -/
def fixDbOneExpense : DB :=
  { transactions :=
      [{ user := 1, category := 1, amount := -50, date := ⟨2024, 1, 10⟩ }],
    budgets := [], goals := [], entries := [] }

/-- A January-2024 budget of amount 100 (test fixture). -/
def fixBudgetJan : Budget :=
  { id := 1, user := 1, category := 1, amount := 100,
    periodType := PeriodType.monthly,
    startDate := ⟨2024, 1, 1⟩, endDate := ⟨2024, 1, 31⟩, isActive := true }

/-- A store with one 900-ruble expense in January 2024 (test fixture). -/
def fixDbBigExpense : DB :=
  { transactions :=
      [{ user := 1, category := 1, amount := -900, date := ⟨2024, 1, 10⟩ }],
    budgets := [], goals := [], entries := [] }

/-- The empty store (test fixture). -/
def fixDbEmpty : DB :=
  { transactions := [], budgets := [], goals := [], entries := [] }

/-- An income transaction in January 2024 (test fixture). -/
def fixTxIncome : Transaction :=
  { user := 1, category := 1, amount := 50, date := ⟨2024, 1, 10⟩ }

/-- A goal without deadline (test fixture). -/
def fixGoal7 : Goal :=
  { id := 7, user := 1, targetAmount := 1000, deadline := none }

/-- A store whose only goal has been over-withdrawn: one deposit of 100
and one withdrawal of 250 (test fixture). -/
def fixDbOverWithdrawn : DB :=
  { transactions := [], budgets := [], goals := [fixGoal7],
    entries :=
      [{ goalId := 7, occurredAt := ⟨⟨2024, 1, 5⟩, 600⟩, amount := 100,
         entryType := EntryType.deposit },
       { goalId := 7, occurredAt := ⟨⟨2024, 1, 6⟩, 600⟩, amount := -250,
         entryType := EntryType.withdraw }] }

/-- An active budget for January 10 through February 10, 2024 (test
fixture). -/
def fixBudgetMidJan : Budget :=
  { id := 1, user := 1, category := 1, amount := 3000,
    periodType := PeriodType.monthly,
    startDate := ⟨2024, 1, 10⟩, endDate := ⟨2024, 2, 10⟩, isActive := true }

/-- A store holding only `fixBudgetMidJan` (test fixture). -/
def fixDbOneBudget : DB :=
  { transactions := [], budgets := [fixBudgetMidJan], goals := [],
    entries := [] }

/-- A second active budget overlapping `fixBudgetJan`, starting later
(test fixture). -/
def fixBudgetMidJan2 : Budget :=
  { id := 2, user := 1, category := 1, amount := 500,
    periodType := PeriodType.monthly,
    startDate := ⟨2024, 1, 15⟩, endDate := ⟨2024, 2, 15⟩, isActive := true }

/-- A store with two overlapping active budgets for the same user and
category (the data anomaly of C10) (test fixture). -/
def fixDbTwoCurrent : DB :=
  { transactions := [], budgets := [fixBudgetJan, fixBudgetMidJan2],
    goals := [], entries := [] }

/-- A store with mixed January-2024 activity for user 1: income 1000,
expense 300, one out-of-month expense, a foreign user's income, a goal
deposit of 200 and a withdrawal of 50 in the month, and a February
deposit (test fixture). -/
def fixDbMixed : DB :=
  { transactions :=
      [{ user := 1, category := 1, amount := 1000, date := ⟨2024, 1, 3⟩ },
       { user := 1, category := 2, amount := -300, date := ⟨2024, 1, 7⟩ },
       { user := 1, category := 1, amount := -100, date := ⟨2024, 2, 1⟩ },
       { user := 2, category := 1, amount := 500, date := ⟨2024, 1, 5⟩ }],
    budgets := [],
    goals := [fixGoal7],
    entries :=
      [{ goalId := 7, occurredAt := ⟨⟨2024, 1, 5⟩, 3600⟩, amount := 200,
         entryType := EntryType.deposit },
       { goalId := 7, occurredAt := ⟨⟨2024, 1, 20⟩, 0⟩, amount := -50,
         entryType := EntryType.withdraw },
       { goalId := 7, occurredAt := ⟨⟨2024, 2, 1⟩, 0⟩, amount := 80,
         entryType := EntryType.deposit }] }

/-- A store where user 1 sustainedly underuses the category-1 budget:
10000 budgeted and 8000 spent in each of January, February and March 2024
(test fixture). -/
def fixDbRec : DB :=
  { transactions :=
      [{ user := 1, category := 1, amount := -8000, date := ⟨2024, 1, 10⟩ },
       { user := 1, category := 1, amount := -8000, date := ⟨2024, 2, 10⟩ },
       { user := 1, category := 1, amount := -8000, date := ⟨2024, 3, 10⟩ }],
    budgets :=
      [{ id := 1, user := 1, category := 1, amount := 10000,
         periodType := PeriodType.monthly, startDate := ⟨2024, 1, 1⟩,
         endDate := ⟨2024, 1, 31⟩, isActive := true },
       { id := 2, user := 1, category := 1, amount := 10000,
         periodType := PeriodType.monthly, startDate := ⟨2024, 2, 1⟩,
         endDate := ⟨2024, 2, 29⟩, isActive := true },
       { id := 3, user := 1, category := 1, amount := 10000,
         periodType := PeriodType.monthly, startDate := ⟨2024, 3, 1⟩,
         endDate := ⟨2024, 3, 31⟩, isActive := true }],
    goals := [], entries := [] }

/- ### Generic list lemmas used throughout -/

/-- Sum over a filtered cons. -/
theorem sum_map_filter_cons {α : Type} (p : α → Bool) (f : α → ℚ) (a : α)
    (l : List α) :
    (((a :: l).filter p).map f).sum
      = (if p a then f a else 0) + ((l.filter p).map f).sum := by
  cases h : p a <;> simp [List.filter_cons, h]

/-- A list of nonpositive rationals has nonpositive sum. -/
theorem sum_nonpos_of_forall_nonpos (l : List ℚ) (h : ∀ x ∈ l, x ≤ 0) :
    l.sum ≤ 0 := by
  induction l with
  | nil => simp
  | cons a t ih =>
    have ha : a ≤ 0 := h a (List.mem_cons_self a t)
    have ht : t.sum ≤ 0 := ih (fun x hx => h x (List.mem_cons_of_mem a hx))
    simpa using add_nonpos ha ht

/-- The absolute value of a sum of nonpositives is the sum of absolute values. -/
theorem abs_sum_of_forall_nonpos (l : List ℚ) (h : ∀ x ∈ l, x ≤ 0) :
    |l.sum| = (l.map (fun x => |x|)).sum := by
  induction l with
  | nil => simp
  | cons a t ih =>
    have ha : a ≤ 0 := h a (List.mem_cons_self a t)
    have ht : ∀ x ∈ t, x ≤ 0 := fun x hx => h x (List.mem_cons_of_mem a hx)
    have hts : t.sum ≤ 0 := sum_nonpos_of_forall_nonpos t ht
    have : |a + t.sum| = |a| + |t.sum| := by
      rw [abs_of_nonpos ha, abs_of_nonpos hts, abs_of_nonpos (add_nonpos ha hts)]
      ring
    simpa [ih ht] using this

/-- Subtracting dates in the same month subtracts the day fields. -/
theorem dateSubDays_same_month (y m a b : Int) :
    dateSubDays ⟨y, m, a⟩ ⟨y, m, b⟩ = a - b := by
  simp only [dateSubDays, toOrdinal]
  ring

/- ### C3: spent_amount -/

/-- C3: for every budget, `spent_amount` equals the sum of `abs(amount)`
over the user's transactions in the budget's category with negative amount
and date inside `[start_date, end_date]`; it is `0` when no transaction
matches; and a transaction that fails the match predicate (income, other
user/category, or outside the window) contributes nothing. -/
theorem spent_amount_is_sum_of_abs (db : DB) (b : Budget) :
    b.spentAmount db
      = ((db.transactions.filter (fun t => decide (t.user = b.user ∧
          t.category = b.category ∧ SDate.le b.startDate t.date ∧
          SDate.le t.date b.endDate ∧ t.amount < 0))).map
          (fun t => |t.amount|)).sum
    ∧ (db.transactions.filter (fun t => decide (t.user = b.user ∧
          t.category = b.category ∧ SDate.le b.startDate t.date ∧
          SDate.le t.date b.endDate ∧ t.amount < 0)) = [] →
        b.spentAmount db = 0)
    ∧ (∀ t : Transaction, ¬ (t.user = b.user ∧ t.category = b.category ∧
          SDate.le b.startDate t.date ∧ SDate.le t.date b.endDate ∧
          t.amount < 0) →
        b.spentAmount { db with transactions := t :: db.transactions }
          = b.spentAmount db) := by
  refine ⟨?_, ?_, ?_⟩
  · unfold Budget.spentAmount
    have h : ∀ x ∈ (db.transactions.filter (fun t => decide (t.user = b.user ∧
        t.category = b.category ∧ SDate.le b.startDate t.date ∧
        SDate.le t.date b.endDate ∧ t.amount < 0))).map (fun t => t.amount),
        x ≤ 0 := by
      intro x hx
      rcases List.mem_map.mp hx with ⟨t, ht, rfl⟩
      have := List.of_mem_filter ht
      have := of_decide_eq_true this
      exact le_of_lt this.2.2.2.2
    rw [abs_sum_of_forall_nonpos _ h, List.map_map]
    rfl
  · intro h
    unfold Budget.spentAmount
    rw [h]
    decide
  · intro t ht
    unfold Budget.spentAmount
    have hf : (fun t : Transaction => decide (t.user = b.user ∧
        t.category = b.category ∧ SDate.le b.startDate t.date ∧
        SDate.le t.date b.endDate ∧ t.amount < 0)) t = false :=
      decide_eq_false ht
    simp only [List.filter_cons, hf]
    simp

/- ### C5: spent_percentage -/

/-- C5: `spent_percentage` is `0` whenever `amount == 0`, regardless of
the transaction history, and equals `(spent_amount / amount) * 100`
whenever `amount ≠ 0`. -/
theorem spent_percentage_zero_guard (db : DB) (b : Budget) :
    (b.amount = 0 → b.spentPercentage db = 0)
    ∧ (b.amount ≠ 0 →
        b.spentPercentage db = (b.spentAmount db / b.amount) * 100) := by
  constructor
  · intro h
    unfold Budget.spentPercentage
    simp [h]
  · intro h
    unfold Budget.spentPercentage
    simp [h]

/-- Witness for C5 at a concrete store: one budget with zero amount, one
with amount 200 and a single 50-ruble expense inside the window. -/
theorem spent_percentage_zero_guard_witness :
    fixBudgetZero.spentPercentage fixDbOneExpense = 0
    ∧ fixBudget200.spentPercentage fixDbOneExpense
      = (fixBudget200.spentAmount fixDbOneExpense / 200) * 100 :=
  ⟨(spent_percentage_zero_guard fixDbOneExpense fixBudgetZero).1 rfl,
   (spent_percentage_zero_guard fixDbOneExpense fixBudget200).2 (by decide)⟩

/- ### C6: days_remaining -/

/-- C6: `days_remaining` is `0` when either date is unset, `0` whenever
`today > end_date`, and `(end_date - today).days` otherwise; in particular
`today == end_date` yields `0`. -/
theorem days_remaining_cases (b : Budget) (today : SDate) :
    (∀ sd ed : Option SDate, sd = none ∨ ed = none →
        daysRemainingOf sd ed today = 0)
    ∧ (SDate.lt b.endDate today → b.daysRemaining today = 0)
    ∧ (¬ SDate.lt b.endDate today →
        b.daysRemaining today = dateSubDays b.endDate today)
    ∧ (b.endDate = today → b.daysRemaining today = 0) := by
  refine ⟨?_, ?_, ?_, ?_⟩
  · rintro sd ed (rfl | rfl)
    · cases ed <;> rfl
    · cases sd <;> rfl
  · intro h
    unfold Budget.daysRemaining daysRemainingOf
    simp [h]
  · intro h
    unfold Budget.daysRemaining daysRemainingOf
    simp [h]
  · intro h
    have hlt : ¬ SDate.lt b.endDate today := by
      rw [h]
      unfold SDate.lt
      simp
    unfold Budget.daysRemaining daysRemainingOf
    simp [hlt, h, dateSubDays]

/-- Witness for C6: a January 2024 budget viewed from its own end date
and from a later date. -/
theorem days_remaining_cases_witness :
    daysRemainingOf none (some ⟨2024, 1, 31⟩) ⟨2024, 1, 15⟩ = 0
    ∧ fixBudgetJan.daysRemaining ⟨2024, 2, 5⟩ = 0
    ∧ fixBudgetJan.daysRemaining ⟨2024, 1, 31⟩ = 0 :=
  ⟨(days_remaining_cases fixBudgetJan ⟨2024, 1, 15⟩).1
      none (some ⟨2024, 1, 31⟩) (Or.inl rfl),
   (days_remaining_cases fixBudgetJan ⟨2024, 2, 5⟩).2.1 (by decide),
   (days_remaining_cases fixBudgetJan ⟨2024, 1, 31⟩).2.2.2 rfl⟩

/- ### C7: daily_budget_remaining -/

/-- C7: `daily_budget_remaining` is exactly `0` whenever
`days_remaining ≤ 0` — in particular for any budget whose period already
ended, whatever the sign of `remaining_amount` — and equals
`remaining_amount / days_remaining` otherwise. -/
theorem daily_budget_remaining_guard (db : DB) (b : Budget) (today : SDate) :
    (b.daysRemaining today ≤ 0 → b.dailyBudgetRemaining db today = 0)
    ∧ (SDate.lt b.endDate today → b.dailyBudgetRemaining db today = 0)
    ∧ (0 < b.daysRemaining today →
        b.dailyBudgetRemaining db today
          = b.remainingAmount db / ((b.daysRemaining today : Int) : ℚ)) := by
  refine ⟨?_, ?_, ?_⟩
  · intro h
    unfold Budget.dailyBudgetRemaining
    simp [h]
  · intro h
    have h0 : b.daysRemaining today = 0 := by
      unfold Budget.daysRemaining daysRemainingOf
      simp [h]
    unfold Budget.dailyBudgetRemaining
    simp [h0]
  · intro h
    unfold Budget.dailyBudgetRemaining
    simp [not_le.mpr h]

/-- Witness for C7: an ended, heavily overspent budget still yields a
daily budget of `0`; a live one divides the remainder by the days left. -/
theorem daily_budget_remaining_guard_witness :
    fixBudgetJan.dailyBudgetRemaining fixDbBigExpense ⟨2024, 2, 5⟩ = 0
    ∧ fixBudgetJan.dailyBudgetRemaining fixDbEmpty ⟨2024, 1, 29⟩
      = fixBudgetJan.remainingAmount fixDbEmpty / 2 := by
  constructor
  · exact (daily_budget_remaining_guard fixDbBigExpense fixBudgetJan
      ⟨2024, 2, 5⟩).2.1 (by decide)
  · have h := (daily_budget_remaining_guard fixDbEmpty fixBudgetJan
      ⟨2024, 1, 29⟩).2.2 (by decide)
    have h2 : fixBudgetJan.daysRemaining ⟨2024, 1, 29⟩ = 2 := by decide
    rw [h, h2]
    norm_num

/- ### C8: create_monthly_budget -/

/-- C8: for any year and month, `create_monthly_budget` builds a budget
running from the first to the last day of that month (December rolls over
into January), and `days_total` is exactly the number of days in the
month. -/
theorem create_monthly_budget_month_window (id user category : Nat)
    (amount : ℚ) (year month : Int) (h1 : 1 ≤ month) (h2 : month ≤ 12) :
    (createMonthlyBudget id user category amount year month).startDate
        = ⟨year, month, 1⟩
    ∧ (createMonthlyBudget id user category amount year month).endDate
        = ⟨year, month, daysInMonth year month⟩
    ∧ (createMonthlyBudget id user category amount year month).daysTotal
        = daysInMonth year month := by
  have hend : (createMonthlyBudget id user category amount year month).endDate
      = ⟨year, month, daysInMonth year month⟩ := by
    unfold createMonthlyBudget
    by_cases h12 : month = 12
    · subst h12
      simp only [if_pos rfl]
      unfold predDay
      norm_num
      unfold daysInMonth
      norm_num [isLeap]
    · simp only [if_neg h12]
      unfold predDay
      have hm1 : ¬ (1 : Int) < 1 := by norm_num
      have hmgt : (1 : Int) < month + 1 := by omega
      simp only [hm1, if_false, hmgt, if_true]
      norm_num
  refine ⟨rfl, hend, ?_⟩
  have hstart : (createMonthlyBudget id user category amount year month).startDate
      = ⟨year, month, 1⟩ := rfl
  unfold Budget.daysTotal daysTotalOf
  rw [hstart, hend]
  rw [show (match some (⟨year, month, 1⟩ : SDate),
      some (⟨year, month, daysInMonth year month⟩ : SDate) with
    | none, _ => (0 : Int)
    | _, none => 0
    | some s, some e => dateSubDays e s + 1)
      = dateSubDays ⟨year, month, daysInMonth year month⟩ ⟨year, month, 1⟩ + 1
    from rfl]
  rw [dateSubDays_same_month]
  ring

/-- Witness for C8, scenario C of the specification: December 2024 gives
the window 2024-12-01 … 2024-12-31 and `days_total = 31`. -/
theorem create_monthly_budget_month_window_witness :
    (createMonthlyBudget 1 1 1 10000 2024 12).startDate = ⟨2024, 12, 1⟩
    ∧ (createMonthlyBudget 1 1 1 10000 2024 12).endDate = ⟨2024, 12, 31⟩
    ∧ (createMonthlyBudget 1 1 1 10000 2024 12).daysTotal = 31 := by
  have h := create_monthly_budget_month_window 1 1 1 10000 2024 12
    (by norm_num) (by norm_num)
  refine ⟨h.1, ?_, ?_⟩
  · rw [h.2.1]; decide
  · rw [h.2.2]; decide

/-- Witness for C3: adding an income transaction to the store leaves
`spent_amount` unchanged. -/
theorem spent_amount_is_sum_of_abs_witness :
    Budget.spentAmount
        { fixDbEmpty with transactions := fixTxIncome :: fixDbEmpty.transactions }
        fixBudgetJan
      = fixBudgetJan.spentAmount fixDbEmpty :=
  (spent_amount_is_sum_of_abs fixDbEmpty fixBudgetJan).2.2 fixTxIncome
    (by decide)

/- ### Order lemmas for dates -/

/-- `SDate.le` unfolded to a lexicographic comparison of the fields. -/
theorem SDate.le_iff_comp (a b : SDate) :
    SDate.le a b ↔ (a.year < b.year ∨ (a.year = b.year ∧
      (a.month < b.month ∨ (a.month = b.month ∧ a.day ≤ b.day)))) := by
  cases a
  cases b
  unfold SDate.le SDate.lt
  simp only [SDate.mk.injEq]
  omega

/-- `SDate.le` is reflexive. -/
theorem SDate.le_rfl (a : SDate) : SDate.le a a := Or.inr rfl

/-- `SDate.le` is transitive. -/
theorem SDate.le_trans {a b c : SDate} (h1 : SDate.le a b)
    (h2 : SDate.le b c) : SDate.le a c := by
  rw [SDate.le_iff_comp] at h1 h2 ⊢
  omega

/-- `SDate.le` is total. -/
theorem SDate.le_total (a b : SDate) : SDate.le a b ∨ SDate.le b a := by
  rw [SDate.le_iff_comp, SDate.le_iff_comp]
  omega

/- ### C9: goal balance is an unclamped signed sum; display floors it -/

/-- Evaluation of the over-withdrawn fixture: the internal balance is
`100 - 250 = -150`. -/
theorem fixDbOverWithdrawn_balance :
    getGoalBalance fixDbOverWithdrawn 1 7 = -150 := by
  show ((100 : ℚ)) + ((-250) + 0) = -150
  norm_num

/-- C9: `goal_balance` is the exact signed sum of the goal's ledger
amounts (`0` with no entries, no clamping, so it can go negative), while
`goal_card_data` floors the displayed balance at zero, which therefore
never surfaces negative. -/
theorem goal_balance_unclamped_card_floored (db : DB) (user goalId : Nat)
    (today : SDate) :
    getGoalBalance db user goalId
      = ((db.entries.filter (fun en => decide (en.goalId = goalId ∧
          db.entryUser en = some user))).map (fun en => en.amount)).sum
    ∧ (db.entries.filter (fun en => decide (en.goalId = goalId ∧
          db.entryUser en = some user)) = [] →
        getGoalBalance db user goalId = 0)
    ∧ (∀ card : GoalCardData, getGoalCardData db user goalId today = some card →
        card.balance = max (getGoalBalance db user goalId) 0
          ∧ 0 ≤ card.balance)
    ∧ (∃ db2 : DB, ∃ u g : Nat, getGoalBalance db2 u g < 0) := by
  refine ⟨rfl, ?_, ?_, ?_⟩
  · intro h
    unfold getGoalBalance
    rw [h]
    rfl
  · intro card hcard
    unfold getGoalCardData at hcard
    cases hg : getGoal db user goalId with
    | none => rw [hg] at hcard; exact absurd hcard (by simp)
    | some goal =>
      rw [hg] at hcard
      simp only [Option.some.injEq] at hcard
      subst hcard
      exact ⟨rfl, le_max_right _ _⟩
  · refine ⟨fixDbOverWithdrawn, 1, 7, ?_⟩
    rw [fixDbOverWithdrawn_balance]
    norm_num

/-- Witness for C9: in the over-withdrawn fixture the internal balance is
negative while the card shows zero. -/
theorem goal_balance_unclamped_card_floored_witness :
    getGoalBalance fixDbOverWithdrawn 1 7 = -150
    ∧ (∀ card : GoalCardData,
        getGoalCardData fixDbOverWithdrawn 1 7 ⟨2024, 1, 15⟩ = some card →
          card.balance = max (getGoalBalance fixDbOverWithdrawn 1 7) 0
            ∧ 0 ≤ card.balance) :=
  ⟨fixDbOverWithdrawn_balance,
   (goal_balance_unclamped_card_floored fixDbOverWithdrawn 1 7
      ⟨2024, 1, 15⟩).2.2.1⟩

/- ### C10: get_current_budget under overlapping windows -/

/-- C10: with no active budget window containing the date,
`get_current_budget` returns none rather than raising; otherwise it
returns a matching budget whose `start_date` is greatest among the
matches (the first row under the model's `-start_date` ordering). -/
theorem get_current_budget_greatest_start (db : DB) (user category : Nat)
    (d : SDate) :
    (currentBudgetMatches db user category d = [] →
      getCurrentBudget db user category d = none)
    ∧ (currentBudgetMatches db user category d ≠ [] →
      ∃ b : Budget, getCurrentBudget db user category d = some b
        ∧ b ∈ currentBudgetMatches db user category d
        ∧ ∀ b2 ∈ currentBudgetMatches db user category d,
            SDate.le b2.startDate b.startDate) := by
  constructor
  · intro h
    unfold getCurrentBudget
    rw [h]
    simp
  · intro h
    set s := (currentBudgetMatches db user category d).mergeSort
      (fun a b => decide (SDate.le b.startDate a.startDate)) with hs
    have hlen : s.length = (currentBudgetMatches db user category d).length := by
      rw [hs]
      exact (List.mergeSort_perm _ _).length_eq
    have hne : s ≠ [] := by
      intro habs
      apply h
      rw [habs] at hlen
      exact List.length_eq_zero.mp hlen.symm
    cases hcase : s with
    | nil => exact absurd hcase hne
    | cons b tl =>
      refine ⟨b, ?_, ?_, ?_⟩
      · unfold getCurrentBudget
        rw [← hs, hcase]
        rfl
      · have : b ∈ s := by rw [hcase]; exact List.mem_cons_self b tl
        rw [hs] at this
        exact List.mem_mergeSort.mp this
      · intro b2 hb2
        have hsorted : List.Pairwise
            (fun x y => (decide (SDate.le y.startDate x.startDate)) = true) s := by
          rw [hs]
          refine List.sorted_mergeSort ?_ ?_ _
          · intro x y z hxy hyz
            have h1 := of_decide_eq_true hxy
            have h2 := of_decide_eq_true hyz
            exact decide_eq_true (SDate.le_trans h2 h1)
          · intro x y
            rcases SDate.le_total x.startDate y.startDate with hc | hc
            · simp [decide_eq_true hc]
            · simp [decide_eq_true hc]
        have hb2s : b2 ∈ s := by
          rw [hs]
          exact List.mem_mergeSort.mpr hb2
        rw [hcase] at hb2s hsorted
        rcases List.mem_cons.mp hb2s with rfl | htl
        · exact SDate.le_rfl _
        · have := (List.pairwise_cons.mp hsorted).1 b2 htl
          exact of_decide_eq_true this

/-- Witness for C10: with two overlapping active January-2024 budgets,
the lookup returns a match with the later start date. -/
theorem get_current_budget_greatest_start_witness :
    currentBudgetMatches fixDbTwoCurrent 1 1 ⟨2024, 1, 20⟩ ≠ []
    ∧ ∃ b : Budget, getCurrentBudget fixDbTwoCurrent 1 1 ⟨2024, 1, 20⟩ = some b
        ∧ b ∈ currentBudgetMatches fixDbTwoCurrent 1 1 ⟨2024, 1, 20⟩
        ∧ ∀ b2 ∈ currentBudgetMatches fixDbTwoCurrent 1 1 ⟨2024, 1, 20⟩,
            SDate.le b2.startDate b.startDate :=
  ⟨by decide,
   (get_current_budget_greatest_start fixDbTwoCurrent 1 1 ⟨2024, 1, 20⟩).2
     (by decide)⟩

/- ### C4: overlap validation at budget creation/update -/

/-- The overlap test succeeds exactly when another active budget of the
user and category has a window intersecting `[startD, endD]`. -/
theorem overlappingActiveBudgetExists_iff (db : DB) (excludePk : Option Nat)
    (user category : Nat) (startD endD : SDate) :
    overlappingActiveBudgetExists db excludePk user category startD endD = true
      ↔ ∃ b ∈ db.budgets, b.user = user ∧ b.category = category ∧
          b.isActive = true ∧ excludePk ≠ some b.id ∧
          SDate.le b.startDate endD ∧ SDate.le startD b.endDate := by
  unfold overlappingActiveBudgetExists
  rw [List.any_eq_true]
  constructor
  · rintro ⟨b, hb, hcond⟩
    have hmem := List.mem_filter.mp hb
    have h1 := of_decide_eq_true hmem.2
    have h2 := of_decide_eq_true hcond
    exact ⟨b, hmem.1, h1.1, h1.2.1, h1.2.2.1, h1.2.2.2, h2.1, h2.2⟩
  · rintro ⟨b, hb, h1, h2, h3, h4, h5, h6⟩
    exact ⟨b, List.mem_filter.mpr ⟨hb, decide_eq_true ⟨h1, h2, h3, h4⟩⟩,
      decide_eq_true ⟨h5, h6⟩⟩

/-- C4 counterexample: with an existing active budget for Jan 10 – Feb 10
on the books, the serializer path rejects a January 2024 budget for the
same user and category, while the quick-create monthly helper persists
exactly that overlapping January budget with no rejection. -/
theorem create_monthly_budget_skips_overlap_check :
    overlappingActiveBudgetExists fixDbOneBudget none 1 1
        ⟨2024, 1, 1⟩ ⟨2024, 1, 31⟩ = true
    ∧ budgetSerializerValidate fixDbOneBudget none 1 1 ⟨2024, 1, 1⟩
        (some ⟨2024, 1, 31⟩)
        = Except.error "overlapping active budget for this category"
    ∧ (createMonthlyBudget 2 1 1 5000 2024 1).startDate = ⟨2024, 1, 1⟩
    ∧ (createMonthlyBudget 2 1 1 5000 2024 1).endDate = ⟨2024, 1, 31⟩
    ∧ (DB.createMonthlyBudgetPersist fixDbOneBudget 2 1 1 5000 2024 1).1.budgets
        = fixDbOneBudget.budgets ++ [createMonthlyBudget 2 1 1 5000 2024 1] :=
  ⟨by decide, rfl, by decide, by decide, rfl⟩

/-- C4 (amended): the overlap rejection is raised on the serializer
create/update path exactly when another active budget of the category
overlaps the requested window (the record under update being excluded),
while the quick-create monthly helper appends its row unconditionally,
with no overlap check. -/
theorem serializer_rejects_overlap_helper_does_not (db : DB)
    (instancePk : Option Nat) (user category : Nat) (startD : SDate)
    (endDOpt : Option SDate) :
    (budgetSerializerValidate db instancePk user category startD endDOpt
        = Except.error "overlapping active budget for this category"
      ↔ ∃ b ∈ db.budgets, b.user = user ∧ b.category = category ∧
          b.isActive = true ∧ instancePk ≠ some b.id ∧
          SDate.le b.startDate (endDOpt.getD startD) ∧
          SDate.le startD b.endDate)
    ∧ ∀ (id2 : Nat) (amount : ℚ) (year month : Int),
        (DB.createMonthlyBudgetPersist db id2 user category amount
            year month).1.budgets
          = db.budgets
            ++ [createMonthlyBudget id2 user category amount year month] := by
  constructor
  · unfold budgetSerializerValidate
    by_cases h : overlappingActiveBudgetExists db instancePk user category
        startD (endDOpt.getD startD) = true
    · rw [if_pos h]
      simp only [true_iff]
      exact (overlappingActiveBudgetExists_iff db instancePk user category
        startD (endDOpt.getD startD)).mp h
    · rw [if_neg h]
      constructor
      · intro habs
        exact absurd habs (by simp)
      · intro hex
        exact absurd ((overlappingActiveBudgetExists_iff db instancePk user
          category startD (endDOpt.getD startD)).mpr hex) h
  · intro id2 amount year month
    rfl

/- ### C1: free funds decomposition -/

/-- Summing a pointwise sum of two maps splits into two sums. -/
theorem sum_map_add {α : Type} (l : List α) (f g : α → ℚ) :
    (l.map (fun a => f a + g a)).sum = (l.map f).sum + (l.map g).sum := by
  induction l with
  | nil => simp
  | cons a t ih =>
    simp only [List.map_cons, List.sum_cons, ih]
    ring

/-- Filters by propositionally equivalent predicates coincide. -/
theorem filter_decide_congr {α : Type} (l : List α) (P Q : α → Prop)
    [DecidablePred P] [DecidablePred Q] (h : ∀ a, P a ↔ Q a) :
    l.filter (fun a => decide (P a)) = l.filter (fun a => decide (Q a)) := by
  apply List.filter_congr
  intro a _
  exact decide_eq_decide.mpr (h a)

/-- Two chained filters collapse into one filter by the conjunction. -/
theorem filter_filter_decide {α : Type} (l : List α) (P Q : α → Prop)
    [DecidablePred P] [DecidablePred Q] :
    (l.filter (fun a => decide (P a))).filter (fun a => decide (Q a))
      = l.filter (fun a => decide (P a ∧ Q a)) := by
  rw [List.filter_filter]
  apply List.filter_congr
  intro a _
  simp [Bool.and_comm]

/-- Under distinct goal ids, summing an id-indicator over the user's
goals picks out whether the goal found by id belongs to the user. -/
theorem sum_indicator_unique_goal (goals : List Goal)
    (hnd : (goals.map Goal.id).Nodup) (x user : Nat) (c : ℚ) :
    ((goals.filter (fun g => decide (g.user = user))).map
        (fun g => if g.id = x then c else 0)).sum
      = if (goals.find? (fun g => decide (g.id = x))).map (fun g => g.user)
            = some user then c else 0 := by
  induction goals with
  | nil => simp
  | cons g rest ih =>
    rw [List.map_cons, List.nodup_cons] at hnd
    have hnotin : g.id ∉ rest.map Goal.id := hnd.1
    have hnd2 : (rest.map Goal.id).Nodup := hnd.2
    by_cases hid : g.id = x
    · have hfind : (g :: rest).find? (fun g2 => decide (g2.id = x)) = some g :=
        List.find?_cons_of_pos _ (decide_eq_true hid)
      rw [hfind]
      have hrest0 : ((rest.filter (fun g2 => decide (g2.user = user))).map
          (fun g2 => if g2.id = x then c else 0)).sum = 0 := by
        apply List.sum_eq_zero
        intro y hy
        rcases List.mem_map.mp hy with ⟨g2, hg2, rfl⟩
        have hg2mem : g2 ∈ rest := (List.mem_filter.mp hg2).1
        have hne : g2.id ≠ x := by
          intro habs
          apply hnotin
          rw [hid]
          rw [← habs]
          exact List.mem_map_of_mem Goal.id hg2mem
        simp [hne]
      rw [sum_map_filter_cons]
      by_cases hu : g.user = user
      · simp [decide_eq_true hu, hid, hrest0, hu]
      · have : ¬ (some g.user = some user) := by simp [hu]
        simp [hu, hrest0, this]
    · have hfind : (g :: rest).find? (fun g2 => decide (g2.id = x))
          = rest.find? (fun g2 => decide (g2.id = x)) :=
        List.find?_cons_of_neg _ (by simp [hid])
      rw [hfind, sum_map_filter_cons, ← ih hnd2]
      by_cases hu : g.user = user
      · simp [decide_eq_true hu, hid]
      · simp [hu]

/-- The flat ledger filter by the `goal__user` join equals the nested
per-goal sums over the user's goals, provided goal ids are distinct. -/
theorem join_sum_by_goal (goals : List Goal) (entries : List GoalLedgerEntry)
    (user : Nat) (P : GoalLedgerEntry → Prop) [DecidablePred P]
    (hnd : (goals.map Goal.id).Nodup) :
    ((entries.filter (fun en => decide
        ((goals.find? (fun g => decide (g.id = en.goalId))).map (fun g => g.user)
            = some user ∧ P en))).map (fun en => en.amount)).sum
      = ((goals.filter (fun g => decide (g.user = user))).map (fun g =>
          ((entries.filter (fun en => decide (en.goalId = g.id ∧ P en))).map
            (fun en => en.amount)).sum)).sum := by
  induction entries with
  | nil => simp
  | cons en rest ih =>
    rw [sum_map_filter_cons]
    have hinner : ∀ g : Goal,
        (((en :: rest).filter (fun en2 => decide (en2.goalId = g.id ∧ P en2))).map
            (fun en2 => en2.amount)).sum
          = (if decide (en.goalId = g.id ∧ P en) then en.amount else 0)
            + ((rest.filter (fun en2 => decide (en2.goalId = g.id ∧ P en2))).map
                (fun en2 => en2.amount)).sum :=
      fun g => sum_map_filter_cons _ _ _ _
    simp only [hinner]
    rw [sum_map_add, ih]
    have key : (if decide ((goals.find? (fun g => decide (g.id = en.goalId))).map
          (fun g => g.user) = some user ∧ P en) then en.amount else 0)
        = ((goals.filter (fun g => decide (g.user = user))).map
            (fun g => if decide (en.goalId = g.id ∧ P en) then en.amount
              else 0)).sum := by
      by_cases hP : P en
      · have hg : ∀ g : Goal, (if decide (en.goalId = g.id ∧ P en)
            then en.amount else 0) = (if g.id = en.goalId then en.amount
              else 0) := by
          intro g
          by_cases h2 : g.id = en.goalId
          · simp [h2, hP]
          · have h3 : ¬ en.goalId = g.id := fun habs => h2 habs.symm
            simp [h2, h3]
        simp only [hg]
        rw [sum_indicator_unique_goal goals hnd en.goalId user en.amount]
        by_cases h3 : (goals.find? (fun g => decide (g.id = en.goalId))).map
            (fun g => g.user) = some user
        · simp [h3, hP]
        · simp [h3]
      · have hall : ∀ g : Goal, (if decide (en.goalId = g.id ∧ P en)
            then en.amount else 0) = 0 := by
          intro g
          simp [hP]
        simp [hP, hall]
    rw [key]

/-- C1: `free_funds_for_month` is exactly income minus expenses minus the
net goal allocations of the calendar month, with each part as the
specification words it (the goal-id injectivity of the store stands in
for the primary-key uniqueness of the goal table). -/
theorem free_funds_decomposition (db : DB) (user : Nat) (month : SDate)
    (hnd : (db.goals.map Goal.id).Nodup) :
    getFreeFundsForMonth db user month
      = incomeTotalSpec db user month - expensesTotalSpec db user month
        - netGoalAllocationsSpec db user month := by
  have hcode : getFreeFundsForMonth db user month
      = (((db.transactions.filter (fun t => decide (t.user = user ∧
            SDate.le (monthRange month).1 t.date ∧
            SDate.lt t.date (monthRange month).2))).filter
            (fun t => decide (0 < t.amount))).map (fun t => t.amount)).sum
        - |(((db.transactions.filter (fun t => decide (t.user = user ∧
            SDate.le (monthRange month).1 t.date ∧
            SDate.lt t.date (monthRange month).2))).filter
            (fun t => decide (t.amount < 0))).map (fun t => t.amount)).sum|
        - ((db.entries.filter (fun en => decide (DB.entryUser db en = some user ∧
            SDateTime.le ⟨(monthRange month).1, 0⟩ en.occurredAt ∧
            SDateTime.lt en.occurredAt ⟨(monthRange month).2, 0⟩))).map
            (fun en => en.amount)).sum := rfl
  rw [hcode]
  congr 1
  · congr 1
    · rw [filter_filter_decide]
      have hi : db.transactions.filter (fun t => decide ((t.user = user ∧
            SDate.le (monthRange month).1 t.date ∧
            SDate.lt t.date (monthRange month).2) ∧ 0 < t.amount))
          = db.transactions.filter (fun t => decide (t.user = user ∧
            dateInMonthWindow month t.date ∧ 0 < t.amount)) := by
        apply filter_decide_congr
        intro t
        unfold dateInMonthWindow
        tauto
      rw [hi]
      rfl
    · rw [filter_filter_decide]
      have he : db.transactions.filter (fun t => decide ((t.user = user ∧
            SDate.le (monthRange month).1 t.date ∧
            SDate.lt t.date (monthRange month).2) ∧ t.amount < 0))
          = db.transactions.filter (fun t => decide (t.user = user ∧
            dateInMonthWindow month t.date ∧ t.amount < 0)) := by
        apply filter_decide_congr
        intro t
        unfold dateInMonthWindow
        tauto
      rw [he]
      rfl
  · have hb : db.entries.filter (fun en => decide (DB.entryUser db en = some user ∧
        SDateTime.le ⟨(monthRange month).1, 0⟩ en.occurredAt ∧
        SDateTime.lt en.occurredAt ⟨(monthRange month).2, 0⟩))
        = db.entries.filter (fun en => decide
          ((db.goals.find? (fun g => decide (g.id = en.goalId))).map
              (fun g => g.user) = some user
            ∧ dtInMonthWindow month en.occurredAt)) := by
      apply filter_decide_congr
      intro en
      unfold DB.entryUser DB.goalOf dtInMonthWindow
      tauto
    rw [hb, join_sum_by_goal db.goals db.entries user
      (fun en => dtInMonthWindow month en.occurredAt) hnd]
    rfl

/-- Witness for C1 at the mixed fixture (income 1000, expense 300, net
goal allocation 150 in January 2024). -/
theorem free_funds_decomposition_witness :
    getFreeFundsForMonth fixDbMixed 1 ⟨2024, 1, 15⟩
      = incomeTotalSpec fixDbMixed 1 ⟨2024, 1, 15⟩
        - expensesTotalSpec fixDbMixed 1 ⟨2024, 1, 15⟩
        - netGoalAllocationsSpec fixDbMixed 1 ⟨2024, 1, 15⟩ :=
  free_funds_decomposition fixDbMixed 1 ⟨2024, 1, 15⟩ (by decide)

/- ### C2: helper lemmas -/

/-- `SDate.lt` unfolded to a lexicographic comparison of the fields. -/
theorem SDate.lt_iff_comp (a b : SDate) :
    SDate.lt a b ↔ (a.year < b.year ∨ (a.year = b.year ∧
      (a.month < b.month ∨ (a.month = b.month ∧ a.day < b.day)))) := Iff.rfl

/-- `SDate.lt` is irreflexive. -/
theorem SDate.lt_irrefl (a : SDate) : ¬ SDate.lt a a := by
  rw [SDate.lt_iff_comp]
  omega

/-- `SDate.lt` is transitive. -/
theorem SDate.lt_trans {a b c : SDate} (h1 : SDate.lt a b)
    (h2 : SDate.lt b c) : SDate.lt a c := by
  rw [SDate.lt_iff_comp] at h1 h2 ⊢
  omega

/-- Stepping the cursor back strictly decreases the date. -/
theorem prevMonthStart_lt (c : SDate) : SDate.lt (prevMonthStart c) c := by
  cases c with
  | mk y m d =>
    unfold prevMonthStart
    by_cases h : m = 1
    · simp only [h]
      rw [SDate.lt_iff_comp]
      simp
    · have hne : ¬ ((⟨y, m, d⟩ : SDate).month = 1) := h
      rw [if_neg hne]
      rw [SDate.lt_iff_comp]
      simp

/-- Every listed month start lies strictly before the cursor. -/
theorem mem_monthsListFrom_lt :
    ∀ (n : Nat) (c x : SDate), x ∈ monthsListFrom n c → SDate.lt x c := by
  intro n
  induction n with
  | zero =>
    intro c x hx
    simp [monthsListFrom] at hx
  | succ k ih =>
    intro c x hx
    simp only [monthsListFrom] at hx
    rcases List.mem_cons.mp hx with rfl | h
    · exact prevMonthStart_lt c
    · exact SDate.lt_trans (ih _ _ h) (prevMonthStart_lt c)

/-- The listed month starts are distinct. -/
theorem monthsListFrom_nodup :
    ∀ (n : Nat) (c : SDate), (monthsListFrom n c).Nodup := by
  intro n
  induction n with
  | zero =>
    intro c
    simp [monthsListFrom]
  | succ k ih =>
    intro c
    simp only [monthsListFrom]
    refine List.nodup_cons.mpr ⟨?_, ih _⟩
    intro habs
    exact SDate.lt_irrefl _ (mem_monthsListFrom_lt _ _ _ habs)

/-- The month list has the requested length. -/
theorem monthsListFrom_length :
    ∀ (n : Nat) (c : SDate), (monthsListFrom n c).length = n := by
  intro n
  induction n with
  | zero => intro c; rfl
  | succ k ih =>
    intro c
    simp only [monthsListFrom, List.length_cons, ih]

/-- Membership in the insertion-ordered key list. -/
theorem mem_firstKeysAux (l : List Nat) :
    ∀ (acc : List Nat) (c : Nat),
      c ∈ firstKeysAux acc l ↔ c ∈ acc ∨ c ∈ l := by
  induction l with
  | nil =>
    intro acc c
    simp [firstKeysAux]
  | cons x rest ih =>
    intro acc c
    show c ∈ firstKeysAux (if x ∈ acc then acc else acc ++ [x]) rest ↔ _
    rw [ih]
    by_cases hx : x ∈ acc
    · simp only [if_pos hx, List.mem_cons]
      constructor
      · rintro (h | h)
        · exact Or.inl h
        · exact Or.inr (Or.inr h)
      · rintro (h | h | h)
        · exact Or.inl h
        · exact Or.inl (h ▸ hx)
        · exact Or.inr h
    · simp only [if_neg hx, List.mem_append, List.mem_singleton, List.mem_cons]
      tauto

/-- A category is a dict key exactly when some budget row carries it. -/
theorem mem_firstKeys (l : List Nat) (c : Nat) : c ∈ firstKeys l ↔ c ∈ l := by
  unfold firstKeys
  rw [mem_firstKeysAux]
  simp

/-- Two searches agree when they accept the same elements and the
accepted elements of the first list are all equal. -/
theorem find?_eq_find? {α : Type} (l1 l2 : List α) (p q : α → Bool)
    (hiff : ∀ a, (a ∈ l1 ∧ p a = true) ↔ (a ∈ l2 ∧ q a = true))
    (huniq : ∀ a b, a ∈ l1 → p a = true → b ∈ l1 → p b = true → a = b) :
    l1.find? p = l2.find? q := by
  cases h1 : l1.find? p with
  | none =>
    cases h2 : l2.find? q with
    | none => rfl
    | some b =>
      have hb2 : b ∈ l2 ∧ q b = true :=
        ⟨List.mem_of_find?_eq_some h2, List.find?_some h2⟩
      have hb1 := (hiff b).mpr hb2
      exact absurd hb1.2 (List.find?_eq_none.mp h1 b hb1.1)
  | some a =>
    have ha : a ∈ l1 ∧ p a = true :=
      ⟨List.mem_of_find?_eq_some h1, List.find?_some h1⟩
    have ha2 := (hiff a).mp ha
    cases h2 : l2.find? q with
    | none => exact absurd ha2.2 (List.find?_eq_none.mp h2 a ha2.1)
    | some b =>
      have hb2 : b ∈ l2 ∧ q b = true :=
        ⟨List.mem_of_find?_eq_some h2, List.find?_some h2⟩
      have hb1 := (hiff b).mpr hb2
      rw [huniq a b ha.1 ha.2 hb1.1 hb1.2]

/-- A filter-map by an everywhere-defined function keeps the length. -/
theorem length_filterMap_of_isSome {α β : Type} (l : List α)
    (f : α → Option β) (h : ∀ a ∈ l, (f a).isSome = true) :
    (l.filterMap f).length = l.length := by
  induction l with
  | nil => rfl
  | cons a t ih =>
    rcases Option.isSome_iff_exists.mp (h a (List.mem_cons_self a t)) with ⟨b, hb⟩
    rw [List.filterMap_cons, hb]
    simp only [List.length_cons]
    rw [ih (fun x hx => h x (List.mem_cons_of_mem a hx))]

/-- Mapping a left inverse over a filter-map restores the index list. -/
theorem map_filterMap_eq_self {α β : Type} (l : List α) (f : α → Option β)
    (g : β → α) (h : ∀ a ∈ l, ∃ b, f a = some b ∧ g b = a) :
    (l.filterMap f).map g = l := by
  induction l with
  | nil => rfl
  | cons a t ih =>
    rcases h a (List.mem_cons_self a t) with ⟨b, hb, hg⟩
    rw [List.filterMap_cons, hb]
    simp only [List.map_cons, hg]
    rw [ih (fun x hx => h x (List.mem_cons_of_mem a hx))]

/-- `floorQ` is the floor. -/
theorem floorQ_eq_floor (q : ℚ) : floorQ q = ⌊q⌋ := by
  unfold floorQ
  rw [Rat.floor_def]

/-- Half-even rounding never rounds below the floor. -/
theorem floorQ_le_roundHalfEvenQ (q : ℚ) : floorQ q ≤ roundHalfEvenQ q := by
  unfold roundHalfEvenQ
  dsimp only
  split_ifs <;> omega

/-- Quantizing preserves the one-kopeck lower bound. -/
theorem quantize2_ge_cent (q : ℚ) (h : 1 / 100 ≤ q) :
    1 / 100 ≤ quantize2 q := by
  unfold quantize2
  have h1 : (1 : ℚ) ≤ q * 100 := by linarith
  have h2 : (1 : ℤ) ≤ ⌊q * 100⌋ := by
    rw [Int.le_floor]
    exact_mod_cast h1
  have h3 : (1 : ℤ) ≤ roundHalfEvenQ (q * 100) := by
    have := floorQ_le_roundHalfEvenQ (q * 100)
    rw [floorQ_eq_floor] at this
    omega
  have h4 : (1 : ℚ) ≤ (roundHalfEvenQ (q * 100) : ℚ) := by exact_mod_cast h3
  linarith

/-- A positive whole-kopeck decimal is at least one kopeck. -/
theorem cents_pos_ge (q : ℚ) (hc : isCents q) (hp : 0 < q) : 1 / 100 ≤ q := by
  unfold isCents at hc
  have hden : (q.den : ℚ) ≤ 100 := by
    exact_mod_cast Nat.le_of_dvd (by norm_num) hc
  have hnum : (1 : ℚ) ≤ (q.num : ℚ) := by
    have := Rat.num_pos.mpr hp
    exact_mod_cast this
  have hdpos : (0 : ℚ) < (q.den : ℚ) := by
    exact_mod_cast q.den_pos
  have hq : q = (q.num : ℚ) / (q.den : ℚ) := (Rat.num_div_den q).symm
  rw [hq, div_le_div_iff₀ (by norm_num) hdpos]
  nlinarith

/-- A list of values all at least `c` sums to at least `length * c`. -/
theorem length_mul_le_sum (l : List ℚ) (c : ℚ) (h : ∀ x ∈ l, c ≤ x) :
    (l.length : ℚ) * c ≤ l.sum := by
  induction l with
  | nil => simp
  | cons a t ih =>
    have ha := h a (List.mem_cons_self a t)
    have ht := ih (fun x hx => h x (List.mem_cons_of_mem a hx))
    simp only [List.length_cons, List.sum_cons]
    push_cast
    linarith

/-- A positive underuse forces a positive budget amount. -/
theorem amount_pos_of_underuse_pos (db : DB) (b : Budget)
    (h : 0 < underuseOf db b) : 0 < b.amount := by
  unfold underuseOf at h
  have hspent : 0 ≤ b.spentAmount db := by
    unfold Budget.spentAmount
    exact abs_nonneg _
  by_contra hle
  push_neg at hle
  rw [max_eq_left (by linarith)] at h
  exact absurd h (by norm_num)

/-- First-order wrapper around `List.find?_some`. -/
theorem find?_some_prop {α : Type} (l : List α) (p : α → Bool) (a : α)
    (h : l.find? p = some a) : p a = true := List.find?_some h

/-- A boolean that is not true is false. -/
theorem bool_eq_false_of_not (b : Bool) (h : ¬ b = true) : b = false := by
  cases b
  · rfl
  · exact absurd rfl h

/-- What a found spec-side month budget satisfies. -/
theorem specMonthBudget_some (db : DB) (user c : Nat) (m : SDate) (b : Budget)
    (h : specMonthBudget db user c m = some b) :
    b ∈ db.budgets ∧ b.user = user ∧ b.isActive = true ∧
      b.periodType = PeriodType.monthly ∧ b.category = c ∧ b.startDate = m := by
  unfold specMonthBudget at h
  have hmem := List.mem_of_find?_eq_some h
  have hdec := find?_some_prop db.budgets
    (fun b2 => decide (b2.user = user ∧ b2.isActive = true ∧
      b2.periodType = PeriodType.monthly ∧ b2.category = c ∧
      b2.startDate = m)) b h
  have hp := of_decide_eq_true hdec
  exact ⟨hmem, hp.1, hp.2.1, hp.2.2.1, hp.2.2.2.1, hp.2.2.2.2⟩

/-- The spec-side month budget exists exactly when some row qualifies. -/
theorem specMonthBudget_isSome_iff (db : DB) (user c : Nat) (m : SDate) :
    (specMonthBudget db user c m).isSome = true
      ↔ ∃ b ∈ db.budgets, b.user = user ∧ b.isActive = true ∧
          b.periodType = PeriodType.monthly ∧ b.category = c ∧
          b.startDate = m := by
  unfold specMonthBudget
  rw [List.find?_isSome]
  constructor
  · rintro ⟨b, hb, hp⟩
    exact ⟨b, hb, of_decide_eq_true hp⟩
  · rintro ⟨b, hb, hp⟩
    exact ⟨b, hb, decide_eq_true hp⟩

/-- The recommendation loop body, characterised: it yields a value exactly
when every guard passes, and then the value is the category with the
rounded median underuse. -/
theorem processCategory_eq_some_iff (db : DB) (ms : List SDate)
    (months : Nat) (minR minP : ℚ) (c : Nat) (items : List Budget)
    (r : GoalRecommendation) :
    processCategory db ms months minR minP c items = some r
      ↔ (¬ items.length < months
        ∧ ms.any (fun m => (lastForStart items m).isNone) = false
        ∧ ((ms.filterMap (fun m => lastForStart items m)).map
            (fun b => underuseOf db b)).any (fun u => decide (u ≤ 0)) = false
        ∧ ¬ quantize2 (medianQ ((ms.filterMap (fun m => lastForStart items m)).map
            (fun b => underuseOf db b))) < minR
        ∧ ¬ (0 < quantize2 ((((ms.filterMap (fun m => lastForStart items m)).map
              (fun b => b.amount)).sum
              / (((ms.filterMap (fun m => lastForStart items m)).map
                (fun b => b.amount)).length : ℚ)))
            ∧ quantize2 (medianQ ((ms.filterMap (fun m => lastForStart items m)).map
                (fun b => underuseOf db b)))
              / quantize2 ((((ms.filterMap (fun m => lastForStart items m)).map
                (fun b => b.amount)).sum
                / (((ms.filterMap (fun m => lastForStart items m)).map
                  (fun b => b.amount)).length : ℚ))) < minP)
        ∧ r = { title := "Потенциальный резерв из бюджета", categoryId := c,
                suggestedAmount := quantize2 (medianQ
                  ((ms.filterMap (fun m => lastForStart items m)).map
                    (fun b => underuseOf db b))) }) := by
  simp only [processCategory]
  split_ifs with h1 h2 h3 h4 h5
  · simp [h1]
  · simp [h1, h2]
  · simp [h1, h2, h3]
  · simp [h1, h2, h3, h4]
  · constructor
    · intro habs
      exact absurd habs (by simp)
    · rintro ⟨_, _, _, _, hg5, _⟩
      exact absurd h5 hg5
  · constructor
    · intro hsome
      injection hsome with hr
      exact ⟨h1, bool_eq_false_of_not _ h2, bool_eq_false_of_not _ h3, h4, h5,
        hr.symm⟩
    · rintro ⟨_, _, _, _, _, hreq⟩
      rw [hreq]

/-- C2: with the defaults (3 months, 1000 rubles, 5%), a category is
recommended exactly when the user holds an active monthly budget for each
of the three complete preceding months, every month's underuse is
strictly positive, the rounded median underuse is at least 1000 and at
least 5% of the rounded average budget; each recommendation carries that
median as its suggested amount, and the returned list is the stable
descending sort of the survivors truncated to three. Hypotheses: one
budget per (category, month start) — the uniqueness the claim's wording
presumes — and whole-kopeck budget amounts, as the decimal columns
guarantee. -/
theorem budget_underuse_recommendation_criteria (db : DB) (user : Nat)
    (today : SDate)
    (huniq : ∀ b1 ∈ db.budgets, ∀ b2 ∈ db.budgets, b1.user = user →
      b2.user = user → b1.isActive = true → b2.isActive = true →
      b1.periodType = PeriodType.monthly → b2.periodType = PeriodType.monthly →
      b1.category = b2.category → b1.startDate = b2.startDate → b1 = b2)
    (hcents : ∀ b ∈ db.budgets, isCents b.amount) :
    (∀ c : Nat,
      (∃ r ∈ underuseRecommendationsPre db user today 3 1000 (5 / 100),
          r.categoryId = c)
        ↔ recommendsSpec db user today c)
    ∧ (∀ r ∈ underuseRecommendationsPre db user today 3 1000 (5 / 100),
        r.suggestedAmount
          = specUnderuseMedian db user r.categoryId (monthsList today 3))
    ∧ getBudgetUnderuseRecommendations db user today 3 1000 (5 / 100)
        = ((underuseRecommendationsPre db user today 3 1000 (5 / 100)).mergeSort
            (fun a b => decide (b.suggestedAmount ≤ a.suggestedAmount))).take 3
    ∧ List.Pairwise (fun a b => b.suggestedAmount ≤ a.suggestedAmount)
        (getBudgetUnderuseRecommendations db user today 3 1000 (5 / 100))
    ∧ (getBudgetUnderuseRecommendations db user today 3 1000 (5 / 100)).length
        ≤ 3 := by
  have hmsnodup : (monthsList today 3).Nodup := monthsListFrom_nodup 3 _
  have hmslen : (monthsList today 3).length = 3 := monthsListFrom_length 3 _
  have hitems : ∀ (c : Nat) (b : Budget),
      b ∈ (recommendationBudgets db user (monthsList today 3)).filter
          (fun b => decide (b.category = c))
        ↔ (b ∈ db.budgets ∧ b.user = user ∧ b.isActive = true ∧
            b.periodType = PeriodType.monthly ∧
            b.startDate ∈ monthsList today 3 ∧ b.category = c) := by
    intro c b
    rw [List.mem_filter]
    unfold recommendationBudgets
    rw [List.mem_filter]
    constructor
    · rintro ⟨⟨hb, hp⟩, hc⟩
      have hp2 := of_decide_eq_true hp
      have hc2 := of_decide_eq_true hc
      exact ⟨hb, hp2.1, hp2.2.1, hp2.2.2.1, hp2.2.2.2, hc2⟩
    · rintro ⟨hb, h1, h2, h3, h4, h5⟩
      exact ⟨⟨hb, decide_eq_true ⟨h1, h2, h3, h4⟩⟩, decide_eq_true h5⟩
  have hlast : ∀ (c : Nat) (m : SDate), m ∈ monthsList today 3 →
      lastForStart ((recommendationBudgets db user (monthsList today 3)).filter
        (fun b => decide (b.category = c))) m
        = specMonthBudget db user c m := by
    intro c m hm
    unfold lastForStart specMonthBudget
    apply find?_eq_find?
    · intro b
      constructor
      · rintro ⟨hbrev, hp⟩
        have hb := (hitems c b).mp (List.mem_reverse.mp hbrev)
        have hst := of_decide_eq_true hp
        exact ⟨hb.1, decide_eq_true
          ⟨hb.2.1, hb.2.2.1, hb.2.2.2.1, hb.2.2.2.2.2, hst⟩⟩
      · rintro ⟨hb, hq⟩
        have hq2 := of_decide_eq_true hq
        refine ⟨List.mem_reverse.mpr ((hitems c b).mpr
          ⟨hb, hq2.1, hq2.2.1, hq2.2.2.1, ?_, hq2.2.2.2.1⟩),
          decide_eq_true hq2.2.2.2.2⟩
        rw [hq2.2.2.2.2]
        exact hm
    · intro a b ha hpa hbm hpb
      have ha2 := (hitems c a).mp (List.mem_reverse.mp ha)
      have hb2 := (hitems c b).mp (List.mem_reverse.mp hbm)
      have hsa := of_decide_eq_true hpa
      have hsb := of_decide_eq_true hpb
      exact huniq a ha2.1 b hb2.1 ha2.2.1 hb2.2.1 ha2.2.2.1 hb2.2.2.1
        ha2.2.2.2.1 hb2.2.2.2.1 (ha2.2.2.2.2.2.trans hb2.2.2.2.2.2.symm)
        (hsa.trans hsb.symm)
  have hspecEq : ∀ (c : Nat) (b : Budget), b ∈ db.budgets → b.user = user →
      b.isActive = true → b.periodType = PeriodType.monthly →
      b.category = c → specMonthBudget db user c b.startDate = some b := by
    intro c b hb h1 h2 h3 h4
    cases hfind : specMonthBudget db user c b.startDate with
    | none =>
      unfold specMonthBudget at hfind
      have := List.find?_eq_none.mp hfind b hb
      exact absurd (decide_eq_true ⟨h1, h2, h3, h4, rfl⟩) this
    | some b2 =>
      have hb2 := specMonthBudget_some db user c b.startDate b2 hfind
      rw [huniq b2 hb2.1 b hb hb2.2.1 h1 hb2.2.2.1 h2 hb2.2.2.2.1 h3
        (hb2.2.2.2.2.1.trans h4.symm) hb2.2.2.2.2.2]
  have hfmcongr : ∀ c : Nat,
      (monthsList today 3).filterMap (fun m =>
        lastForStart ((recommendationBudgets db user
          (monthsList today 3)).filter (fun b => decide (b.category = c))) m)
        = specMonthBudgets db user c (monthsList today 3) := by
    intro c
    unfold specMonthBudgets
    exact List.filterMap_congr (fun m hm => hlast c m hm)
  have hmb : ∀ (c : Nat) (b : Budget),
      b ∈ specMonthBudgets db user c (monthsList today 3)
        ↔ (b ∈ db.budgets ∧ b.user = user ∧ b.isActive = true ∧
            b.periodType = PeriodType.monthly ∧ b.category = c ∧
            b.startDate ∈ monthsList today 3) := by
    intro c b
    unfold specMonthBudgets
    rw [List.mem_filterMap]
    constructor
    · rintro ⟨m, hm, hsome⟩
      have h := specMonthBudget_some db user c m b hsome
      refine ⟨h.1, h.2.1, h.2.2.1, h.2.2.2.1, h.2.2.2.2.1, ?_⟩
      rw [h.2.2.2.2.2]
      exact hm
    · rintro ⟨hb, h1, h2, h3, h4, h5⟩
      exact ⟨b.startDate, h5, hspecEq c b hb h1 h2 h3 h4⟩
  have hAiff : ∀ c : Nat,
      (∀ m ∈ monthsList today 3, (specMonthBudget db user c m).isSome = true)
        ↔ (∀ m ∈ monthsList today 3, ∃ b ∈ db.budgets, b.user = user ∧
            b.isActive = true ∧ b.periodType = PeriodType.monthly ∧
            b.category = c ∧ b.startDate = m) := by
    intro c
    constructor <;> intro h m hm
    · exact (specMonthBudget_isSome_iff db user c m).mp (h m hm)
    · exact (specMonthBudget_isSome_iff db user c m).mpr (h m hm)
  have hflen : ∀ c : Nat,
      (∀ m ∈ monthsList today 3, (specMonthBudget db user c m).isSome = true) →
      (specMonthBudgets db user c (monthsList today 3)).length = 3 := by
    intro c hall
    unfold specMonthBudgets
    rw [length_filterMap_of_isSome _ _ hall]
    exact hmslen
  have hlen3 : ∀ c : Nat,
      (∀ m ∈ monthsList today 3, (specMonthBudget db user c m).isSome = true) →
      3 ≤ ((recommendationBudgets db user (monthsList today 3)).filter
          (fun b => decide (b.category = c))).length := by
    intro c hall
    have hfl := hflen c hall
    have hmap : (specMonthBudgets db user c (monthsList today 3)).map
        Budget.startDate = monthsList today 3 := by
      unfold specMonthBudgets
      apply map_filterMap_eq_self
      intro m hm
      rcases Option.isSome_iff_exists.mp (hall m hm) with ⟨b, hb⟩
      exact ⟨b, hb, (specMonthBudget_some db user c m b hb).2.2.2.2.2⟩
    have hnd : (specMonthBudgets db user c (monthsList today 3)).Nodup :=
      List.Nodup.of_map Budget.startDate (by rw [hmap]; exact hmsnodup)
    have hsub : specMonthBudgets db user c (monthsList today 3)
        ⊆ (recommendationBudgets db user (monthsList today 3)).filter
            (fun b => decide (b.category = c)) := by
      intro b hbmem
      have h := (hmb c b).mp hbmem
      exact (hitems c b).mpr
        ⟨h.1, h.2.1, h.2.2.1, h.2.2.2.1, h.2.2.2.2.2, h.2.2.2.2.1⟩
    have := (hnd.subperm hsub).length_le
    omega
  have hBiff : ∀ c : Nat,
      (∀ b ∈ specMonthBudgets db user c (monthsList today 3),
          0 < underuseOf db b)
        ↔ (∀ b ∈ db.budgets, b.user = user → b.isActive = true →
            b.periodType = PeriodType.monthly → b.category = c →
            b.startDate ∈ monthsList today 3 → 0 < underuseOf db b) := by
    intro c
    constructor
    · intro h b hb h1 h2 h3 h4 h5
      exact h b ((hmb c b).mpr ⟨hb, h1, h2, h3, h4, h5⟩)
    · intro h b hbmem
      have h2 := (hmb c b).mp hbmem
      exact h b h2.1 h2.2.1 h2.2.2.1 h2.2.2.2.1 h2.2.2.2.2.1 h2.2.2.2.2.2
  have hg3 : ∀ c : Nat,
      (((specMonthBudgets db user c (monthsList today 3)).map
        (fun b => underuseOf db b)).any (fun u => decide (u ≤ 0)) = false)
        ↔ (∀ b ∈ specMonthBudgets db user c (monthsList today 3),
            0 < underuseOf db b) := by
    intro c
    rw [List.any_eq_false]
    constructor
    · intro h b hb
      have h2 := h (underuseOf db b) (List.mem_map_of_mem _ hb)
      simp only [decide_eq_true_eq] at h2
      exact lt_of_not_le h2
    · intro h u hu
      rcases List.mem_map.mp hu with ⟨b, hb, rfl⟩
      simp only [decide_eq_true_eq]
      exact not_le.mpr (h b hb)
  have hg2 : ∀ c : Nat,
      ((monthsList today 3).any (fun m =>
        (lastForStart ((recommendationBudgets db user
          (monthsList today 3)).filter (fun b => decide (b.category = c)))
          m).isNone) = false)
        ↔ (∀ m ∈ monthsList today 3,
            (specMonthBudget db user c m).isSome = true) := by
    intro c
    rw [List.any_eq_false]
    constructor <;> intro h m hm
    · have h2 := h m hm
      rw [hlast c m hm] at h2
      cases hopt : specMonthBudget db user c m with
      | none => rw [hopt] at h2; exact absurd rfl h2
      | some b => rfl
    · rw [hlast c m hm]
      have h2 := h m hm
      cases hopt : specMonthBudget db user c m with
      | none => rw [hopt] at h2; exact absurd h2 (by simp)
      | some b => simp
  have havgpos : ∀ c : Nat,
      (∀ b ∈ specMonthBudgets db user c (monthsList today 3),
          0 < underuseOf db b) →
      (∀ m ∈ monthsList today 3, (specMonthBudget db user c m).isSome = true) →
      0 < specBudgetAvg db user c (monthsList today 3) := by
    intro c hpos hall
    have hge : ∀ x ∈ (specMonthBudgets db user c (monthsList today 3)).map
        (fun b => b.amount), 1 / 100 ≤ x := by
      intro x hx
      rcases List.mem_map.mp hx with ⟨b, hb, rfl⟩
      have hbm := (hmb c b).mp hb
      exact cents_pos_ge _ (hcents b hbm.1)
        (amount_pos_of_underuse_pos db b (hpos b hb))
    have hsum := length_mul_le_sum _ (1 / 100) hge
    rw [List.length_map, hflen c hall] at hsum
    unfold specBudgetAvg
    apply lt_of_lt_of_le (show (0 : ℚ) < 1 / 100 by norm_num)
    apply quantize2_ge_cent
    rw [List.length_map, hflen c hall]
    rw [le_div_iff₀ (by norm_num : (0 : ℚ) < ((3 : Nat) : ℚ))]
    push_cast
    linarith
  refine ⟨?_, ?_, rfl, ?_, ?_⟩
  · intro c
    constructor
    · rintro ⟨r, hrpre, hrc⟩
      simp only [underuseRecommendationsPre] at hrpre
      rcases List.mem_filterMap.mp hrpre with ⟨c2, hc2keys, hproc⟩
      rw [processCategory_eq_some_iff] at hproc
      obtain ⟨hG1, hG2, hG3, hG4, hG5, hreq⟩ := hproc
      have hc2 : c2 = c := by
        rw [← hrc, hreq]
      subst hc2
      rw [hfmcongr c2] at hG3 hG4 hG5
      have hAsome := (hg2 c2).mp hG2
      have hBpos := (hg3 c2).mp hG3
      refine ⟨(hAiff c2).mp hAsome, (hBiff c2).mp hBpos, ?_, ?_⟩
      · unfold specUnderuseMedian
        exact not_lt.mp hG4
      · have hpos := havgpos c2 hBpos hAsome
        unfold specUnderuseMedian specBudgetAvg
        unfold specBudgetAvg at hpos
        by_contra hlt
        push_neg at hlt
        exact hG5 ⟨hpos, hlt⟩
    · rintro ⟨hA, hB, hC, hD⟩
      have hAsome := (hAiff c).mpr hA
      refine ⟨{ title := "Потенциальный резерв из бюджета", categoryId := c,
                suggestedAmount :=
                  specUnderuseMedian db user c (monthsList today 3) },
        ?_, rfl⟩
      simp only [underuseRecommendationsPre]
      apply List.mem_filterMap.mpr
      refine ⟨c, ?_, ?_⟩
      · rw [mem_firstKeys]
        have hmsne : monthsList today 3 ≠ [] := by
          intro habs
          rw [habs] at hmslen
          exact absurd hmslen (by simp)
        obtain ⟨m, hm⟩ := List.exists_mem_of_ne_nil _ hmsne
        obtain ⟨b, hb, h1, h2, h3, h4, h5⟩ := hA m hm
        apply List.mem_map.mpr
        refine ⟨b, ?_, h4⟩
        unfold recommendationBudgets
        refine List.mem_filter.mpr ⟨hb, decide_eq_true ⟨h1, h2, h3, ?_⟩⟩
        rw [h5]
        exact hm
      · rw [processCategory_eq_some_iff]
        refine ⟨?_, ?_, ?_, ?_, ?_, ?_⟩
        · have := hlen3 c hAsome
          omega
        · exact (hg2 c).mpr hAsome
        · rw [hfmcongr c]
          exact (hg3 c).mpr ((hBiff c).mpr hB)
        · rw [hfmcongr c]
          unfold specUnderuseMedian at hC
          exact not_lt.mpr hC
        · rw [hfmcongr c]
          rintro ⟨hpos, hlt⟩
          unfold specUnderuseMedian specBudgetAvg at hD
          exact absurd hlt (not_lt.mpr hD)
        · rw [hfmcongr c]
          unfold specUnderuseMedian
          rfl
  · intro r hrpre
    simp only [underuseRecommendationsPre] at hrpre
    rcases List.mem_filterMap.mp hrpre with ⟨c2, hc2keys, hproc⟩
    rw [processCategory_eq_some_iff] at hproc
    obtain ⟨_, _, _, _, _, hreq⟩ := hproc
    rw [hreq]
    dsimp only
    rw [hfmcongr c2]
    rfl
  · have hsorted : List.Pairwise (fun x y : GoalRecommendation =>
        (decide (y.suggestedAmount ≤ x.suggestedAmount)) = true)
        ((underuseRecommendationsPre db user today 3 1000 (5 / 100)).mergeSort
          (fun a b => decide (b.suggestedAmount ≤ a.suggestedAmount))) := by
      refine List.sorted_mergeSort ?_ ?_ _
      · intro x y z hxy hyz
        have h1 := of_decide_eq_true hxy
        have h2 := of_decide_eq_true hyz
        exact decide_eq_true (le_trans h2 h1)
      · intro x y
        rcases le_total x.suggestedAmount y.suggestedAmount with hc | hc
        · simp [decide_eq_true hc]
        · simp [decide_eq_true hc]
    have htake := List.Pairwise.sublist (List.take_sublist 3 _) hsorted
    exact htake.imp (fun h => of_decide_eq_true h)
  · show (((underuseRecommendationsPre db user today 3 1000
      (5 / 100)).mergeSort
        (fun a b => decide (b.suggestedAmount ≤ a.suggestedAmount))).take
          3).length ≤ 3
    rw [List.length_take]
    exact min_le_left _ _

/-- Witness for C2: in the sustained-underuse fixture the criteria and
the engine agree for category 1, and the returned list is within the
three-entry cap. -/
theorem budget_underuse_recommendation_criteria_witness :
    ((∃ r ∈ underuseRecommendationsPre fixDbRec 1 ⟨2024, 4, 10⟩ 3 1000
          (5 / 100), r.categoryId = 1)
      ↔ recommendsSpec fixDbRec 1 ⟨2024, 4, 10⟩ 1)
    ∧ (getBudgetUnderuseRecommendations fixDbRec 1 ⟨2024, 4, 10⟩ 3 1000
        (5 / 100)).length ≤ 3 :=
  ⟨(budget_underuse_recommendation_criteria fixDbRec 1 ⟨2024, 4, 10⟩
      (by decide) (by decide)).1 1,
   (budget_underuse_recommendation_criteria fixDbRec 1 ⟨2024, 4, 10⟩
      (by decide) (by decide)).2.2.2.2⟩
